import Mathlib

/-!
Verification of the `fast-alpr` recognition pipeline (`src/fast_alpr/alpr.py`).

The two public operations of `ALPR` are shallowly embedded here:
  * `ALPR.predict`          (alpr.py lines 89-111)  → `predict` below
  * `ALPR.draw_predictions` (alpr.py lines 113-161) → `draw_predictions` below

The external collaborators (detector capability, OCR capability, and the
OpenCV drawing primitives `cv2.rectangle` / `cv2.putText`) are parameters of
the model, collected in an `Env` record: the pipeline's code treats them as
black boxes and so do we.  Frames are 2-D pixel buffers; numpy basic slicing
`frame[y1:y2, x1:x2]` is embedded with Python slice semantics (negative
indices count from the end, out-of-range slice bounds are clipped by the
slicing operation itself — the pipeline adds no clamping of its own).
Numeric confidence values are modelled as exact rationals.
-/

set_option autoImplicit false

namespace FastAlpr

/-- A BGR pixel, one triple of channel values. -/
abbrev Pixel := Int × Int × Int

/-- A frame: rows of pixels (the caller-owned 2-D buffer). -/
abbrev Frame := List (List Pixel)

/-- Modelled from the spec: `BoundingBox` (spec §3) — four integer pixel
coordinates, produced by the detection capability (`fast_alpr.base`, not
under `src/`). -/
structure BoundingBox where
  x1 : Int
  y1 : Int
  x2 : Int
  y2 : Int
deriving DecidableEq

/-- Modelled from the spec: `Detection` (spec §3, §6) — one bounding box and
an optional detector confidence (`fast_alpr.base`, not under `src/`). -/
structure Detection where
  bounding_box : BoundingBox
  confidence : Option Rat
deriving DecidableEq

/-- Modelled from the spec: `OcrResult` (spec §3, §6) — optional text, an
ordered sequence of per-slot confidences, and an optional padding symbol
(`fast_alpr.base`, not under `src/`).  Python falsiness of `text` means
`None` or `""`; falsiness of `confidences` means the empty sequence. -/
structure OcrResult where
  text : Option String
  confidences : List Rat
  padding_symbol : Option String
deriving DecidableEq

/-- `leadsWith p l` holds when the character list `p` starts the list `l`
(an inlined prefix test, used to embed Python's `str.replace` scan). -/
def leadsWith : List Char → List Char → Bool
  | [], _ => true
  | _ :: _, [] => false
  | p :: ps, c :: cs => p == c && leadsWith ps cs

/-- Embedding of Python's `t.replace(p, "")` on character lists: scan left to
right, delete each non-overlapping occurrence of `p`, resume after the
deleted occurrence.  With `p = ""` (and empty replacement) Python returns the
string unchanged, matched by the `p ≠ []` guard.  The `fuel` argument makes
the recursion structural; every step consumes at least one character, so
`fuel = l.length` (as supplied by `removeAllList`) never runs out. -/
def removeAllFuel (p : List Char) : Nat → List Char → List Char
  | _, [] => []
  | 0, l => l
  | fuel + 1, c :: cs =>
    if p ≠ [] ∧ leadsWith p (c :: cs) then
      removeAllFuel p fuel (List.drop (p.length - 1) cs)
    else
      c :: removeAllFuel p fuel cs

/-- Python's `t.replace(p, "")` on character lists. -/
def removeAllList (p l : List Char) : List Char :=
  removeAllFuel p l.length l

/-- Python `t.replace(p, "")` on strings. -/
def pyReplaceDel (t : String) (p : String) : String :=
  String.mk (removeAllList p.data t.data)

/-- alpr.py line 109 / 135:
`plate_text = ocr_result.text.replace(ocr_result.padding_symbol or "", "")`.
`x or ""` maps `None` to `""` (and leaves `""` at `""`), embedded by
`Option.getD`; only reached when `text` is a non-empty string. -/
def cleanPlate (r : OcrResult) : String :=
  pyReplaceDel (r.text.getD "") (r.padding_symbol.getD "")

/-- Normalisation of one Python slice index on a sequence of length `n`:
a negative index counts from the end, then the result is clipped into
`[0, n]` (Python/numpy basic-slice semantics). -/
def sliceIdx (n : Nat) (i : Int) : Nat :=
  let j : Int := if i < 0 then i + (n : Int) else i
  (min (max j 0) (n : Int)).toNat

/-- Python `xs[a:b]` on a list. -/
def pySlice {α : Type} (xs : List α) (a b : Int) : List α :=
  (xs.take (sliceIdx xs.length b)).drop (sliceIdx xs.length a)

/-- alpr.py line 104 / 130: `cropped_plate = frame[y1:y2, x1:x2]` —
numpy basic slicing of the row range then, in every remaining row, the
column range.  No clamping or padding beyond slice semantics themselves. -/
def cropFrame (f : Frame) (bb : BoundingBox) : Frame :=
  (pySlice f bb.y1 bb.y2).map (fun row => pySlice row bb.x1 bb.x2)

/-- Number of pixels of a buffer (zero-area crops have none). -/
def numPixels (f : Frame) : Nat :=
  (f.map List.length).sum

/-- The environment of external capabilities the pipeline composes:
the detection capability (`self.detector.predict`), the OCR capability
(`self.ocr.predict`), and the two OpenCV drawing primitives, taken as
opaque frame transformers (`cv2.rectangle` and `cv2.putText`). -/
structure Env where
  detector : Frame → List Detection
  ocr : Frame → Option OcrResult
  rectFx : Frame → (Int × Int) → (Int × Int) → Pixel → Int → Frame
  textFx : Frame → String → (Int × Int) → Nat → Rat → Pixel → Int → Nat → Frame

/-- The loop body condition of alpr.py line 106 / 132 (after the `None`
check): `not ocr_result.text or not ocr_result.confidences`, together with
`ocr_result is None` kept in the disjunction for fidelity to the source. -/
def skipGuard (r : OcrResult) : Prop :=
  r.text = none ∨ r.text = some "" ∨ r.confidences = []

instance (r : OcrResult) : Decidable (skipGuard r) := by
  unfold skipGuard
  infer_instance

/-- `successful r` iff the skip guard does not fire: non-absent non-empty
text and non-empty confidences. -/
def successful (r : OcrResult) : Bool :=
  match r.text with
  | none => false
  | some t => !(t == "") && !r.confidences.isEmpty

/-- The loop of `ALPR.predict` (alpr.py lines 101-110) over a detection
list: crop, run OCR, skip on a falsy result, otherwise append the cleaned
text (the Python append-accumulator is rendered as the equivalent cons). -/
def predictGo (env : Env) (frame : Frame) : List Detection → List String
  | [] => []
  | d :: ds =>
    match env.ocr (cropFrame frame d.bounding_box) with
    | none => predictGo env frame ds
    | some r =>
      if skipGuard r then predictGo env frame ds
      else cleanPlate r :: predictGo env frame ds

/-- `ALPR.predict` (alpr.py lines 89-111). -/
def predict (env : Env) (frame : Frame) : List String :=
  predictGo env frame (env.detector frame)

/-- OCR outcome for one detection of a frame. -/
def ocrAt (env : Env) (frame : Frame) (d : Detection) : Option OcrResult :=
  env.ocr (cropFrame frame d.bounding_box)

/-- Whether a detection of a frame survives the skip policy. -/
def isSuccess (env : Env) (frame : Frame) (d : Detection) : Bool :=
  match ocrAt env frame d with
  | none => false
  | some r => successful r

/-- The cleaned plate text of a (surviving) detection. -/
def plateOf (env : Env) (frame : Frame) (d : Detection) : String :=
  match ocrAt env frame d with
  | none => ""
  | some r => cleanPlate r

/-- The raw (pre-cleaning) confidence sequence of a detection's OCR result. -/
def confsOf (env : Env) (frame : Frame) (d : Detection) : List Rat :=
  match ocrAt env frame d with
  | none => []
  | some r => r.confidences

theorem skipGuard_iff_not_successful (r : OcrResult) :
    skipGuard r ↔ successful r = false := by
  cases h : r.text with
  | none => simp [skipGuard, successful, h]
  | some t =>
    simp only [skipGuard, successful, h, Option.some.injEq, List.isEmpty_iff,
      Bool.and_eq_false_iff, Bool.not_eq_true', beq_eq_false_iff_ne, ne_eq,
      Bool.not_eq_false', beq_iff_eq, false_or]
    tauto

theorem predictGo_characterization (env : Env) (frame : Frame)
    (ds : List Detection) :
    predictGo env frame ds =
      (ds.filter (isSuccess env frame)).map (plateOf env frame) := by
  induction ds with
  | nil => rfl
  | cons d ds ih =>
    by_cases hs : isSuccess env frame d
    · cases hocr : ocrAt env frame d with
      | none => simp [isSuccess, hocr] at hs
      | some r =>
        have hns : ¬ skipGuard r := by
          rw [skipGuard_iff_not_successful]
          simp only [isSuccess, hocr] at hs
          simp [hs]
        simp only [ocrAt] at hocr
        simp [predictGo, hocr, hns, List.filter_cons, hs, plateOf, ocrAt,
          List.map_cons, ih]
    · cases hocr : ocrAt env frame d with
      | none =>
        simp only [ocrAt] at hocr
        simp [predictGo, hocr, List.filter_cons, hs, ih]
      | some r =>
        have hsk : skipGuard r := by
          rw [skipGuard_iff_not_successful]
          simp only [isSuccess, hocr] at hs
          simpa using hs
        simp only [ocrAt] at hocr
        simp [predictGo, hocr, hsk, List.filter_cons, hs, ih]

theorem removeAllFuel_nil_symbol :
    ∀ (fuel : Nat) (l : List Char), removeAllFuel [] fuel l = l := by
  intro fuel
  induction fuel with
  | zero => intro l; cases l <;> rfl
  | succ n ih =>
    intro l
    cases l with
    | nil => rfl
    | cons c cs => simp [removeAllFuel, ih]

theorem removeAllList_nil_symbol (l : List Char) : removeAllList [] l = l :=
  removeAllFuel_nil_symbol l.length l

theorem removeAllFuel_single (c : Char) :
    ∀ (fuel : Nat) (l : List Char), l.length ≤ fuel →
      removeAllFuel [c] fuel l = l.filter (fun a => a ≠ c) := by
  intro fuel
  induction fuel with
  | zero =>
    intro l hl
    have hnil : l = [] := List.length_eq_zero.mp (Nat.le_zero.mp hl)
    subst hnil
    rfl
  | succ n ih =>
    intro l hl
    cases l with
    | nil => rfl
    | cons b bs =>
      have hbs : bs.length ≤ n := by
        simpa [Nat.succ_le_succ_iff] using hl
      by_cases h : c = b
      · subst h
        simp [removeAllFuel, leadsWith, List.filter_cons, ih bs hbs]
      · have hb : (c == b) = false := by simp [h]
        simp [removeAllFuel, leadsWith, hb, Ne.symm h, List.filter_cons,
          ih bs hbs]

theorem removeAllList_single (c : Char) (l : List Char) :
    removeAllList [c] l = l.filter (fun a => a ≠ c) :=
  removeAllFuel_single c l.length l (Nat.le_refl _)

theorem not_mem_removeAllList_single (c : Char) (l : List Char) :
    c ∉ removeAllList [c] l := by
  rw [removeAllList_single]
  intro hmem
  have := List.of_mem_filter hmem
  simp at this

/-! ### The visualization overlay (`ALPR.draw_predictions`)

The overlay mutates the frame through `cv2.rectangle` / `cv2.putText`; we
thread the buffer state explicitly and also record every drawing call issued,
in order, as a `DrawCall` trace. -/

/-- `cv2.FONT_HERSHEY_SIMPLEX` (alpr.py lines 144, 155). -/
def FONT_HERSHEY_SIMPLEX : Nat := 0

/-- `cv2.LINE_AA` (alpr.py lines 148, 159). -/
def LINE_AA : Nat := 16

/-- The rectangle color `(36, 255, 12)` of alpr.py line 128. -/
def greenColor : Pixel := (36, 255, 12)

/-- The outline text color `(0, 0, 0)` of alpr.py line 146. -/
def blackColor : Pixel := (0, 0, 0)

/-- The foreground text color `(255, 255, 255)` of alpr.py line 157. -/
def whiteColor : Pixel := (255, 255, 255)

/-- One OpenCV drawing call issued by `draw_predictions`, with its
arguments as passed at the call site. -/
inductive DrawCall where
  | rect (pt1 pt2 : Int × Int) (color : Pixel) (thickness : Int)
  | text (s : String) (org : Int × Int) (fontFace : Nat) (fontScale : Rat)
      (color : Pixel) (thickness : Int) (lineType : Nat)
deriving DecidableEq

/-- `np.mean` over the confidence sequence (alpr.py line 136), modelled as
the exact arithmetic mean of rationals. -/
def npMean (l : List Rat) : Rat :=
  l.sum / (l.length : Rat)

/-- Round a rational to the nearest integer, ties to even — the rounding of
Python's fixed-point float formatting. -/
def roundHalfEven (q : Rat) : Int :=
  let f := q.floor
  let r := q - (f : Rat)
  if r < 1 / 2 then f
  else if 1 / 2 < r then f + 1
  else if f % 2 = 0 then f else f + 1

/-- Python's `:.2f` fixed-point formatting of a (non-negative) value. -/
def fmt2 (q : Rat) : String :=
  let n := roundHalfEven (q * 100)
  let fp := (n % 100).natAbs
  toString (n / 100) ++ "." ++ (if fp < 10 then "0" else "") ++ toString fp

/-- alpr.py line 137:
`display_text = f"{plate_text} {avg_confidence * 100:.2f}%"`, with
`avg_confidence = np.mean(ocr_result.confidences)` from line 136. -/
def displayText (plate : String) (confs : List Rat) : String :=
  plate ++ " " ++ fmt2 (npMean confs * 100) ++ "%"

/-- One iteration of the `draw_predictions` loop (alpr.py lines 124-160)
on the current buffer: draw the bounding-box rectangle (line 128, before
the OCR call), crop the *current* (already annotated) buffer (line 130),
run OCR, and when the result survives the skip guard render the display
text twice (black thickness 6, then white thickness 2) at `(x1, y1 - 10)`
with font scale 1.25.  Returns the new buffer and the calls issued. -/
def drawStep (env : Env) (d : Detection) (f : Frame) : Frame × List DrawCall :=
  let bb := d.bounding_box
  let f1 := env.rectFx f (bb.x1, bb.y1) (bb.x2, bb.y2) greenColor 2
  let rlog := [DrawCall.rect (bb.x1, bb.y1) (bb.x2, bb.y2) greenColor 2]
  match env.ocr (cropFrame f1 bb) with
  | none => (f1, rlog)
  | some r =>
    if skipGuard r then (f1, rlog)
    else
      let disp := displayText (cleanPlate r) r.confidences
      let f2 := env.textFx f1 disp (bb.x1, bb.y1 - 10) FONT_HERSHEY_SIMPLEX
        (5 / 4) blackColor 6 LINE_AA
      let f3 := env.textFx f2 disp (bb.x1, bb.y1 - 10) FONT_HERSHEY_SIMPLEX
        (5 / 4) whiteColor 2 LINE_AA
      (f3,
        rlog ++
          [DrawCall.text disp (bb.x1, bb.y1 - 10) FONT_HERSHEY_SIMPLEX (5 / 4)
            blackColor 6 LINE_AA,
           DrawCall.text disp (bb.x1, bb.y1 - 10) FONT_HERSHEY_SIMPLEX (5 / 4)
            whiteColor 2 LINE_AA])

/-- The `draw_predictions` loop over the detection list, threading the
mutated buffer and concatenating the per-detection call traces. -/
def drawGo (env : Env) : List Detection → Frame → Frame × List DrawCall
  | [], f => (f, [])
  | d :: ds, f =>
    let step := drawStep env d f
    let rest := drawGo env ds step.1
    (rest.1, step.2 ++ rest.2)

/-- `ALPR.draw_predictions` (alpr.py lines 113-161): the detector runs on
the incoming frame, then the loop annotates the buffer in place; the first
component is the buffer the function returns, the second the ordered trace
of OpenCV drawing calls it issued. -/
def draw_predictions (env : Env) (frame : Frame) : Frame × List DrawCall :=
  drawGo env (env.detector frame) frame

/-- Replay one recorded drawing call on a buffer. -/
def applyCall (env : Env) (f : Frame) : DrawCall → Frame
  | DrawCall.rect pt1 pt2 color thickness => env.rectFx f pt1 pt2 color thickness
  | DrawCall.text s org ff fs color th lt => env.textFx f s org ff fs color th lt

/-- Replay a trace of drawing calls on a buffer, in order. -/
def applyCalls (env : Env) (f : Frame) (cs : List DrawCall) : Frame :=
  cs.foldl (applyCall env) f

/-- The rectangle calls of a trace, in order. -/
def rectCalls (log : List DrawCall) : List DrawCall :=
  log.filter (fun c => match c with
    | DrawCall.rect _ _ _ _ => true
    | DrawCall.text _ _ _ _ _ _ _ => false)

/-- The strings of all text-rendering calls of a trace, in order. -/
def textStrings (log : List DrawCall) : List String :=
  log.filterMap (fun c => match c with
    | DrawCall.rect _ _ _ _ => none
    | DrawCall.text s _ _ _ _ _ _ => some s)

/-- The strings of the white (foreground) text calls of a trace: exactly one
per annotated detection. -/
def whiteTexts (log : List DrawCall) : List String :=
  log.filterMap (fun c => match c with
    | DrawCall.rect _ _ _ _ => none
    | DrawCall.text s _ _ _ color _ _ =>
        if color = whiteColor then some s else none)

/-- `ALPR.predict` with the frame buffer threaded as explicit state: every
operation the source performs on the buffer (only the reads at line 104) acts
on the current state, so that read-onlyness is a provable property rather
than a modelling assumption. -/
def predictGoS (env : Env) : List Detection → Frame → List String × Frame
  | [], f => ([], f)
  | d :: ds, f =>
    match env.ocr (cropFrame f d.bounding_box) with
    | none => predictGoS env ds f
    | some r =>
      if skipGuard r then predictGoS env ds f
      else
        let rest := predictGoS env ds f
        (cleanPlate r :: rest.1, rest.2)

/-- State-threaded `ALPR.predict`: result list and final buffer state. -/
def predictS (env : Env) (frame : Frame) : List String × Frame :=
  predictGoS env (env.detector frame) frame

theorem predictGoS_frame (env : Env) :
    ∀ (ds : List Detection) (f : Frame), (predictGoS env ds f).2 = f := by
  intro ds
  induction ds with
  | nil => intro f; rfl
  | cons d ds ih =>
    intro f
    unfold predictGoS
    cases env.ocr (cropFrame f d.bounding_box) with
    | none => exact ih f
    | some r =>
      by_cases hg : skipGuard r
      · simp [hg, ih f]
      · simp [hg, ih f]

theorem predictGoS_fst (env : Env) :
    ∀ (ds : List Detection) (f : Frame),
      (predictGoS env ds f).1 = predictGo env f ds := by
  intro ds
  induction ds with
  | nil => intro f; rfl
  | cons d ds ih =>
    intro f
    unfold predictGoS predictGo
    cases env.ocr (cropFrame f d.bounding_box) with
    | none => exact ih f
    | some r =>
      by_cases hg : skipGuard r
      · simp [hg, ih f]
      · simp [hg, ih f]

theorem successful_of_not_skipGuard {r : OcrResult} (h : ¬ skipGuard r) :
    successful r = true := by
  cases hs : successful r
  · exact absurd ((skipGuard_iff_not_successful r).mpr hs) h
  · rfl

theorem drawStep_fst (env : Env) (d : Detection) (f : Frame) :
    (drawStep env d f).1 = applyCalls env f (drawStep env d f).2 := by
  simp only [drawStep]
  split
  · simp [applyCalls, applyCall]
  · split
    · simp [applyCalls, applyCall]
    · simp [applyCalls, applyCall]

theorem drawGo_fst (env : Env) :
    ∀ (ds : List Detection) (f : Frame),
      (drawGo env ds f).1 = applyCalls env f (drawGo env ds f).2 := by
  intro ds
  induction ds with
  | nil => intro f; simp [drawGo, applyCalls]
  | cons d ds ih =>
    intro f
    simp only [drawGo]
    have h1 : applyCalls env f (drawStep env d f).2 = (drawStep env d f).1 :=
      (drawStep_fst env d f).symm
    simp only [applyCalls, List.foldl_append] at *
    rw [h1]
    exact ih (drawStep env d f).1

theorem rectCalls_append (a b : List DrawCall) :
    rectCalls (a ++ b) = rectCalls a ++ rectCalls b := by
  simp [rectCalls]

theorem textStrings_append (a b : List DrawCall) :
    textStrings (a ++ b) = textStrings a ++ textStrings b := by
  simp [textStrings]

theorem whiteTexts_append (a b : List DrawCall) :
    whiteTexts (a ++ b) = whiteTexts a ++ whiteTexts b := by
  simp [whiteTexts]

theorem rectCalls_drawStep (env : Env) (d : Detection) (f : Frame) :
    rectCalls (drawStep env d f).2 =
      [DrawCall.rect (d.bounding_box.x1, d.bounding_box.y1)
        (d.bounding_box.x2, d.bounding_box.y2) greenColor 2] := by
  simp only [drawStep]
  split
  · simp [rectCalls]
  · split
    · simp [rectCalls]
    · simp [rectCalls]

theorem textStrings_drawStep (env : Env) (d : Detection) (f : Frame) :
    textStrings (drawStep env d f).2 =
      match env.ocr (cropFrame (env.rectFx f
          (d.bounding_box.x1, d.bounding_box.y1)
          (d.bounding_box.x2, d.bounding_box.y2) greenColor 2)
          d.bounding_box) with
      | none => []
      | some r =>
        if skipGuard r then []
        else [displayText (cleanPlate r) r.confidences,
              displayText (cleanPlate r) r.confidences] := by
  simp only [drawStep]
  split
  · simp [textStrings]
  · split
    · simp [textStrings]
    · simp [textStrings]

theorem whiteTexts_drawStep (env : Env) (d : Detection) (f : Frame) :
    whiteTexts (drawStep env d f).2 =
      match env.ocr (cropFrame (env.rectFx f
          (d.bounding_box.x1, d.bounding_box.y1)
          (d.bounding_box.x2, d.bounding_box.y2) greenColor 2)
          d.bounding_box) with
      | none => []
      | some r =>
        if skipGuard r then []
        else [displayText (cleanPlate r) r.confidences] := by
  simp only [drawStep]
  split
  · simp [whiteTexts]
  · split
    · simp [whiteTexts]
    · have hbw : blackColor ≠ whiteColor := by decide
      simp [whiteTexts, hbw]

theorem rectCalls_drawGo (env : Env) :
    ∀ (ds : List Detection) (f : Frame),
      rectCalls (drawGo env ds f).2 =
        ds.map (fun d => DrawCall.rect (d.bounding_box.x1, d.bounding_box.y1)
          (d.bounding_box.x2, d.bounding_box.y2) greenColor 2) := by
  intro ds
  induction ds with
  | nil => intro f; simp [drawGo, rectCalls]
  | cons d ds ih =>
    intro f
    simp only [drawGo, List.map_cons]
    rw [rectCalls_append, rectCalls_drawStep, ih]
    rfl

theorem textStrings_mem_drawGo (env : Env) :
    ∀ (ds : List Detection) (f : Frame) (s : String),
      s ∈ textStrings (drawGo env ds f).2 →
      ∃ (cimg : Frame) (r : OcrResult), env.ocr cimg = some r ∧
        successful r = true ∧ s = displayText (cleanPlate r) r.confidences := by
  intro ds
  induction ds with
  | nil => intro f s hs; simp [drawGo, textStrings] at hs
  | cons d ds ih =>
    intro f s hs
    simp only [drawGo] at hs
    rw [textStrings_append, List.mem_append] at hs
    rcases hs with hs | hs
    · rw [textStrings_drawStep] at hs
      revert hs
      split
      · intro hs; simp at hs
      next r heq =>
        by_cases hg : skipGuard r
        · simp [hg]
        · intro hs
          simp only [hg, if_false, List.mem_cons, List.mem_singleton,
            List.not_mem_nil, or_false] at hs
          refine ⟨_, r, heq, successful_of_not_skipGuard hg, ?_⟩
          rcases hs with hs | hs <;> exact hs
    · exact ih (drawStep env d f).1 s hs

theorem roundHalfEven_intCast (m : Int) : roundHalfEven ((m : Rat)) = m := by
  have hf : ((m : Rat)).floor = m := by
    rw [Rat.floor]
    simp
  simp only [roundHalfEven, hf]
  norm_num

theorem fmt2_eval (q : Rat) (m : Int) (h : q * 100 = (m : Rat)) :
    fmt2 q = toString (m / 100) ++ "." ++
      (if (m % 100).natAbs < 10 then "0" else "") ++ toString (m % 100).natAbs := by
  simp only [fmt2, h, roundHalfEven_intCast]

/-- The whole overlay trace, under the hypothesis that the OCR outcome of
every detected box does not depend on the annotations drawn so far: it then
coincides box-for-box with the pipeline run on the pristine frame. -/
theorem whiteTexts_drawGo_of_invariant (env : Env) (frame : Frame) :
    ∀ (ds : List Detection) (f : Frame),
      (∀ (g : Frame) (d : Detection), d ∈ ds →
        env.ocr (cropFrame g d.bounding_box) = ocrAt env frame d) →
      whiteTexts (drawGo env ds f).2 =
        (ds.filter (isSuccess env frame)).map
          (fun d => displayText (plateOf env frame d) (confsOf env frame d)) := by
  intro ds
  induction ds with
  | nil => intro f _; simp [drawGo, whiteTexts]
  | cons d ds ih =>
    intro f H
    simp only [drawGo]
    rw [whiteTexts_append, whiteTexts_drawStep]
    have hocr : env.ocr (cropFrame (env.rectFx f
        (d.bounding_box.x1, d.bounding_box.y1)
        (d.bounding_box.x2, d.bounding_box.y2) greenColor 2) d.bounding_box) =
        ocrAt env frame d :=
      H _ d (List.mem_cons_self d ds)
    rw [hocr, ih (drawStep env d f).1
      (fun g d2 hd2 => H g d2 (List.mem_cons_of_mem d hd2))]
    cases hres : ocrAt env frame d with
    | none =>
      have hs : isSuccess env frame d = false := by simp [isSuccess, hres]
      simp [List.filter_cons, hs]
    | some r =>
      by_cases hg : skipGuard r
      · have hs : isSuccess env frame d = false := by
          simp [isSuccess, hres, (skipGuard_iff_not_successful r).mp hg]
        simp [List.filter_cons, hs, hg]
      · have hs : isSuccess env frame d = true := by
          simp [isSuccess, hres, successful_of_not_skipGuard hg]
        simp [List.filter_cons, hs, hg, plateOf, confsOf, hres]

/-! ### The pipeline with capabilities that can raise

The source has no `try`/`except`: a raising capability call aborts the whole
operation.  `EnvE` gives each capability an `Except` result type and
`predictE` is `ALPR.predict` with that effect threaded through; the pipeline
itself introduces no errors and translates none. -/

/-- Capabilities that may raise an exception `ε` (spec §4.1, §7: hard
failures propagate unchanged). -/
structure EnvE (ε : Type) where
  detector : Frame → Except ε (List Detection)
  ocr : Frame → Except ε (Option OcrResult)

/-- The `ALPR.predict` loop with raising capabilities: the first raised
exception aborts and propagates; otherwise behaviour is as `predictGo`. -/
def predictEGo {ε : Type} (env : EnvE ε) (frame : Frame) :
    List Detection → Except ε (List String)
  | [] => Except.ok []
  | d :: ds =>
    match env.ocr (cropFrame frame d.bounding_box) with
    | Except.error e => Except.error e
    | Except.ok none => predictEGo env frame ds
    | Except.ok (some r) =>
      if skipGuard r then predictEGo env frame ds
      else
        match predictEGo env frame ds with
        | Except.error e => Except.error e
        | Except.ok rest => Except.ok (cleanPlate r :: rest)

/-- `ALPR.predict` with raising capabilities. -/
def predictE {ε : Type} (env : EnvE ε) (frame : Frame) :
    Except ε (List String) :=
  match env.detector frame with
  | Except.error e => Except.error e
  | Except.ok ds => predictEGo env frame ds

/-- Wrap never-raising capabilities into the raising interface. -/
def pureEnvE (ε : Type) (env : Env) : EnvE ε where
  detector := fun f => Except.ok (env.detector f)
  ocr := fun c => Except.ok (env.ocr c)

theorem predictEGo_pure (ε : Type) (env : Env) (frame : Frame) :
    ∀ ds, predictEGo (pureEnvE ε env) frame ds =
      Except.ok (predictGo env frame ds) := by
  intro ds
  induction ds with
  | nil => rfl
  | cons d ds ih =>
    have hocr : (pureEnvE ε env).ocr (cropFrame frame d.bounding_box) =
        Except.ok (env.ocr (cropFrame frame d.bounding_box)) := rfl
    simp only [predictEGo, predictGo, hocr]
    cases env.ocr (cropFrame frame d.bounding_box) with
    | none => exact ih
    | some r =>
      by_cases hg : skipGuard r
      · simp [hg, ih]
      · simp [hg, ih]

theorem predictE_pure (ε : Type) (env : Env) (frame : Frame) :
    predictE (pureEnvE ε env) frame = Except.ok (predict env frame) := by
  simp only [predictE, pureEnvE, predict]
  exact predictEGo_pure ε env frame _

theorem pySlice_empty {α : Type} (xs : List α) (a b : Int)
    (ha : 0 ≤ a) (hb : 0 ≤ b) (hba : b ≤ a) : pySlice xs a b = [] := by
  have hle : sliceIdx xs.length b ≤ sliceIdx xs.length a := by
    simp only [sliceIdx]
    rw [if_neg (by omega), if_neg (by omega)]
    omega
  apply List.drop_eq_nil_of_le
  calc (xs.take (sliceIdx xs.length b)).length
      ≤ sliceIdx xs.length b := by
        rw [List.length_take]; exact Nat.min_le_left _ _
    _ ≤ sliceIdx xs.length a := hle

theorem numPixels_of_all_nil {f : Frame} (h : ∀ row ∈ f, row = []) :
    numPixels f = 0 := by
  induction f with
  | nil => rfl
  | cons row rows ih =>
    have hrow : row = [] := h row (List.mem_cons_self row rows)
    have hrest : numPixels rows = 0 :=
      ih (fun r hr => h r (List.mem_cons_of_mem row hr))
    simp [numPixels, hrow]
    simpa [numPixels] using hrest

/-! ### Concrete test data -/

/-- A 1×1 all-black test frame. -/
def frame1 : Frame := [[(0, 0, 0)]]

/-- A detection whose box covers the whole of `frame1`. -/
def dUnit : Detection := ⟨⟨0, 0, 1, 1⟩, none⟩

/-- A degenerate (zero-area) detection box. -/
def dDeg : Detection := ⟨⟨1, 1, 1, 1⟩, none⟩

/-- A drawing primitive that leaves the buffer unchanged (test stub). -/
def idRectFx : Frame → (Int × Int) → (Int × Int) → Pixel → Int → Frame :=
  fun f _ _ _ _ => f

/-- A text primitive that leaves the buffer unchanged (test stub). -/
def idTextFx :
    Frame → String → (Int × Int) → Nat → Rat → Pixel → Int → Nat → Frame :=
  fun f _ _ _ _ _ _ _ => f

/-- A successful OCR result with one mid confidence (test value). -/
def rX : OcrResult := ⟨some "X", [1 / 2], none⟩

/-- Environment whose OCR succeeds with `rX` on every crop. -/
def envInv : Env where
  detector := fun _ => [dUnit]
  ocr := fun _ => some rX
  rectFx := idRectFx
  textFx := idTextFx

/-- Environment whose OCR always fails (returns no result). -/
def envNoOcr : Env where
  detector := fun _ => [dUnit]
  ocr := fun _ => none
  rectFx := idRectFx
  textFx := idTextFx

/-- Environment whose detector finds nothing. -/
def envEmpty : Env where
  detector := fun _ => []
  ocr := fun _ => none
  rectFx := idRectFx
  textFx := idTextFx

/-! ### The claims -/

/-- C1: for every frame, `predict` returns exactly the cleaned texts of the
successful detections (OCR result present, non-empty text, non-empty
confidences), one string per successful detection, in detector order; hence
the output length equals the number of successful detections and is at most
the number of detections. -/
theorem C1_predict_successful_texts (env : Env) (frame : Frame) :
    predict env frame =
      ((env.detector frame).filter (isSuccess env frame)).map
        (plateOf env frame) ∧
    (predict env frame).length =
      (env.detector frame).countP (isSuccess env frame) ∧
    (predict env frame).length ≤ (env.detector frame).length := by
  refine ⟨predictGo_characterization env frame _, ?_, ?_⟩
  · rw [predict, predictGo_characterization, List.length_map,
      List.countP_eq_length_filter]
  · rw [predict, predictGo_characterization, List.length_map]
    exact List.length_filter_le _ _

/-- C3: the cleaned text is the raw text with every occurrence of the
padding symbol removed anywhere in the string (for the single-character
symbols of the data model this is exactly character filtering), and with no
padding symbol the text is unchanged. -/
theorem C3_padding_removal (r : OcrResult) (t : String) (c : Char) :
    (r.text = some t → r.padding_symbol = none → cleanPlate r = t) ∧
    (r.text = some t → r.padding_symbol = some (String.mk [c]) →
      cleanPlate r = String.mk (t.data.filter (fun a => a ≠ c))) := by
  have h0 : ("" : String).data = [] := rfl
  constructor
  · intro ht hp
    cases t with
    | mk l =>
      simp [cleanPlate, pyReplaceDel, ht, hp, h0, removeAllList_nil_symbol]
  · intro ht hp
    simp [cleanPlate, pyReplaceDel, ht, hp, removeAllList_single]

/-- C3 witness: with padding symbol `_`, `"AB_12"` cleans to `"AB12"`
(removal anywhere in the string); with no padding symbol, `"AB12"` is kept
verbatim. -/
theorem C3_witness :
    cleanPlate ⟨some "AB_12", [1], some "_"⟩ =
      String.mk ("AB_12".data.filter (fun a => a ≠ '_')) ∧
    cleanPlate ⟨some "AB12", [1], none⟩ = "AB12" ∧
    String.mk ("AB_12".data.filter (fun a => a ≠ '_')) = "AB12" := by
  refine ⟨(C3_padding_removal ⟨some "AB_12", [1], some "_"⟩ "AB_12" '_').2
      rfl rfl,
    (C3_padding_removal ⟨some "AB12", [1], none⟩ "AB12" '_').1 rfl rfl, ?_⟩
  decide

/-- C5 (amended): `draw_predictions` issues the green thickness-2 rectangle
call for EVERY detection the detector yields, in order — including the
detections the skip policy later drops (the rectangle is drawn at
alpr.py line 128, before the OCR call of line 131). -/
theorem C5_rectangle_for_every_detection (env : Env) (frame : Frame) :
    rectCalls (draw_predictions env frame).2 =
      (env.detector frame).map
        (fun d => DrawCall.rect (d.bounding_box.x1, d.bounding_box.y1)
          (d.bounding_box.x2, d.bounding_box.y2) greenColor 2) :=
  rectCalls_drawGo env (env.detector frame) frame

/-- C5 counterexample: one detection whose OCR result is absent (so the
detection is skipped and `predict` returns nothing for it) still gets its
bounding-box rectangle drawn — refuting "no rectangle is drawn for a
skipped detection". -/
theorem C5_counterexample :
    predict envNoOcr frame1 = [] ∧
    rectCalls (draw_predictions envNoOcr frame1).2 =
      [DrawCall.rect (0, 0) (1, 1) greenColor 2] ∧
    rectCalls (draw_predictions envNoOcr frame1).2 ≠ [] := by
  refine ⟨rfl, rfl, ?_⟩
  decide

/-- C8: when the detector returns zero detections, `predict` returns the
empty sequence and `draw_predictions` returns the frame unmodified with an
empty trace of drawing calls. -/
theorem C8_zero_detections (env : Env) (frame : Frame)
    (hdet : env.detector frame = []) :
    predict env frame = [] ∧ draw_predictions env frame = (frame, []) := by
  constructor
  · rw [predict, hdet]
    rfl
  · rw [draw_predictions, hdet]
    rfl

/-- C8 witness: a concrete environment with a detector that finds nothing. -/
theorem C8_witness :
    predict envEmpty frame1 = [] ∧
    draw_predictions envEmpty frame1 = (frame1, []) :=
  C8_zero_detections envEmpty frame1 rfl

/-- C9: `predict` leaves the frame buffer in its initial state (read-only),
and `draw_predictions` returns exactly the incoming buffer with the drawing
calls it issued applied in place, in order — the returned frame is the
mutated argument buffer, not an untouched copy. -/
theorem C9_frame_effects :
    (∀ (env : Env) (frame : Frame),
      (predictS env frame).2 = frame ∧
      (predictS env frame).1 = predict env frame) ∧
    (∀ (env : Env) (frame : Frame),
      (draw_predictions env frame).1 =
        applyCalls env frame (draw_predictions env frame).2) := by
  constructor
  · intro env frame
    exact ⟨predictGoS_frame env _ frame, predictGoS_fst env _ frame⟩
  · intro env frame
    exact drawGo_fst env (env.detector frame) frame

/-- C10: a surviving OCR result with a single-character padding symbol
yields a string of `predict` that contains no occurrence of that symbol. -/
theorem C10_no_padding_in_output (env : Env) (frame : Frame)
    (d : Detection) (r : OcrResult) (c : Char)
    (hd : d ∈ env.detector frame)
    (hocr : ocrAt env frame d = some r)
    (hsucc : successful r = true)
    (hpad : r.padding_symbol = some (String.mk [c])) :
    cleanPlate r ∈ predict env frame ∧ c ∉ (cleanPlate r).data := by
  constructor
  · rw [predict, predictGo_characterization]
    refine List.mem_map.mpr ⟨d, ?_, ?_⟩
    · exact List.mem_filter.mpr ⟨hd, by simp [isSuccess, hocr, hsucc]⟩
    · simp [plateOf, hocr]
  · simp only [cleanPlate, pyReplaceDel, hpad, Option.getD_some]
    exact not_mem_removeAllList_single c _

/-- C10 witness: a concrete environment whose OCR result on the sole
detection carries padding symbol `_`; the returned plate is padding-free. -/
def envPad : Env where
  detector := fun _ => [dUnit]
  ocr := fun _ => some ⟨some "AB_12", [1], some "_"⟩
  rectFx := idRectFx
  textFx := idTextFx

/-- C10 witness: applying the theorem to `envPad`. -/
theorem C10_witness :
    cleanPlate ⟨some "AB_12", [1], some "_"⟩ ∈ predict envPad frame1 ∧
    '_' ∉ (cleanPlate ⟨some "AB_12", [1], some "_"⟩).data :=
  C10_no_padding_in_output envPad frame1 dUnit
    ⟨some "AB_12", [1], some "_"⟩ '_' (by decide) rfl (by decide) rfl

/-- C2: a detection whose OCR result is absent or falsy contributes nothing
to `predict`'s output or to `draw_predictions`' rendered text, and causes no
error; the pipeline itself raises nothing (with non-raising capabilities the
lifted pipeline always returns `ok`), while capability exceptions propagate
unchanged, whether raised by the detector or by an OCR call. -/
theorem C2_skip_and_error_propagation :
    (∀ (env envB : Env) (frame : Frame) (l1 l2 : List Detection)
        (d : Detection),
      envB.ocr = env.ocr →
      env.detector frame = l1 ++ d :: l2 →
      envB.detector frame = l1 ++ l2 →
      isSuccess env frame d = false →
      predict env frame = predict envB frame) ∧
    (∀ (env : Env) (frame : Frame),
      (∀ (cimg : Frame) (r : OcrResult),
        env.ocr cimg = some r → successful r = false) →
      predict env frame = [] ∧
      textStrings (draw_predictions env frame).2 = []) ∧
    (∀ (ε : Type) (env : Env) (frame : Frame),
      predictE (pureEnvE ε env) frame = Except.ok (predict env frame)) ∧
    (∀ (ε : Type) (envE : EnvE ε) (frame : Frame) (e : ε),
      envE.detector frame = Except.error e →
      predictE envE frame = Except.error e) ∧
    (∀ (ε : Type) (envE : EnvE ε) (frame : Frame) (e : ε) (d : Detection)
        (ds : List Detection),
      envE.detector frame = Except.ok (d :: ds) →
      envE.ocr (cropFrame frame d.bounding_box) = Except.error e →
      predictE envE frame = Except.error e) := by
  refine ⟨?_, ?_, ?_, ?_, ?_⟩
  · intro env envB frame l1 l2 d hocr hdet hdetB hfail
    have hiso : isSuccess envB frame = isSuccess env frame := by
      funext x
      simp [isSuccess, ocrAt, hocr]
    have hplate : plateOf envB frame = plateOf env frame := by
      funext x
      simp [plateOf, ocrAt, hocr]
    rw [predict, predict, predictGo_characterization,
      predictGo_characterization, hdet, hdetB, hiso, hplate]
    simp [List.filter_append, List.filter_cons, hfail]
  · intro env frame hall
    constructor
    · rw [predict, predictGo_characterization]
      have hfe : (env.detector frame).filter (isSuccess env frame) = [] := by
        rw [List.filter_eq_nil_iff]
        intro d hd
        cases hocr2 : ocrAt env frame d with
        | none => simp [isSuccess, hocr2]
        | some r => simp [isSuccess, hocr2, hall _ r hocr2]
      rw [hfe]
      rfl
    · apply List.eq_nil_iff_forall_not_mem.mpr
      intro s hs
      obtain ⟨cimg, r, hr, hsucc, _⟩ :=
        textStrings_mem_drawGo env (env.detector frame) frame s hs
      simp [hall cimg r hr] at hsucc
  · intro ε env frame
    exact predictE_pure ε env frame
  · intro ε envE frame e hdet
    simp only [predictE, hdet]
  · intro ε envE frame e d ds hdet hocr
    simp only [predictE, hdet]
    simp only [predictEGo, hocr]

/-- Detector error for the C2 witness. -/
def envDetErr : EnvE Nat where
  detector := fun _ => Except.error 0
  ocr := fun _ => Except.ok none

/-- OCR error for the C2 witness. -/
def envOcrErr : EnvE Nat where
  detector := fun _ => Except.ok [dUnit]
  ocr := fun _ => Except.error 1

/-- C2 witness: the skip, no-error and propagation parts applied to
concrete environments. -/
theorem C2_witness :
    predict envNoOcr frame1 = predict envEmpty frame1 ∧
    (predict envNoOcr frame1 = [] ∧
      textStrings (draw_predictions envNoOcr frame1).2 = []) ∧
    predictE (pureEnvE Unit envNoOcr) frame1 =
      Except.ok (predict envNoOcr frame1) ∧
    predictE envDetErr frame1 = Except.error 0 ∧
    predictE envOcrErr frame1 = Except.error 1 := by
  refine ⟨?_, ?_, ?_, ?_, ?_⟩
  · exact C2_skip_and_error_propagation.1 envNoOcr envEmpty frame1 [] []
      dUnit rfl rfl rfl (by decide)
  · exact C2_skip_and_error_propagation.2.1 envNoOcr frame1
      (fun _ r h => Option.noConfusion h)
  · exact C2_skip_and_error_propagation.2.2.1 Unit envNoOcr frame1
  · exact C2_skip_and_error_propagation.2.2.2.1 Nat envDetErr frame1 0 rfl
  · exact C2_skip_and_error_propagation.2.2.2.2 Nat envOcrErr frame1 1 dUnit
      [] rfl rfl

/-- C4 counterexample environment: `cv2.rectangle` around the whole 1×1
frame with thickness 2 paints its only pixel with the given color, and OCR
reads the crop's pixels — it succeeds exactly on the pristine black crop. -/
def envC4 : Env where
  detector := fun _ => [dUnit]
  ocr := fun img =>
    if img = [[((0 : Int), (0 : Int), (0 : Int))]] then
      some ⟨some "A", [1], none⟩
    else none
  rectFx := fun f _ _ color _ => f.map (fun row => row.map (fun _ => color))
  textFx := idTextFx

/-- C4 counterexample: `draw_predictions` crops the frame only after drawing
the rectangle onto it (alpr.py line 128 precedes line 130), so a
pixel-sensitive OCR can fail on the annotated crop: here `predict` returns
`["A"]` while `draw_predictions` annotates nothing — the annotated texts are
not the strings `predict` returns. -/
theorem C4_counterexample :
    predict envC4 frame1 = ["A"] ∧
    whiteTexts (draw_predictions envC4 frame1).2 = [] ∧
    whiteTexts (draw_predictions envC4 frame1).2 ≠ predict envC4 frame1 := by
  refine ⟨?_, ?_, ?_⟩ <;> decide

/-- C4 (amended): `draw_predictions` re-runs the same detect→crop→OCR→skip
pipeline with detection re-executed on the incoming frame; provided each
detected box's OCR outcome does not depend on the annotations drawn so far,
the surviving detections and the cleaned texts it annotates are exactly
those of `predict`, in the same order.  (Unconditionally this fails: the
crop is taken after the rectangle is drawn, see the counterexample.) -/
theorem C4_draw_matches_predict_of_ocr_invariant (env : Env) (frame : Frame)
    (H : ∀ (g : Frame) (d : Detection), d ∈ env.detector frame →
      env.ocr (cropFrame g d.bounding_box) = ocrAt env frame d) :
    whiteTexts (draw_predictions env frame).2 =
      ((env.detector frame).filter (isSuccess env frame)).map
        (fun d => displayText (plateOf env frame d) (confsOf env frame d)) ∧
    predict env frame =
      ((env.detector frame).filter (isSuccess env frame)).map
        (plateOf env frame) :=
  ⟨whiteTexts_drawGo_of_invariant env frame (env.detector frame) frame H,
   predictGo_characterization env frame _⟩

/-- C4 witness: with an OCR capability insensitive to the annotations. -/
theorem C4_witness :
    whiteTexts (draw_predictions envInv frame1).2 =
      ((envInv.detector frame1).filter (isSuccess envInv frame1)).map
        (fun d =>
          displayText (plateOf envInv frame1 d) (confsOf envInv frame1 d)) ∧
    predict envInv frame1 =
      ((envInv.detector frame1).filter (isSuccess envInv frame1)).map
        (plateOf envInv frame1) :=
  C4_draw_matches_predict_of_ocr_invariant envInv frame1 (fun _ _ _ => rfl)

/-- C6: with in-bounds (non-negative) coordinates and a zero- or
negative-area box, the crop `frame[y1:y2, x1:x2]` has zero pixels, no
exception arises anywhere in the pipeline, OCR is still invoked on the empty
crop, and its answer alone decides the output via the skip policy. -/
theorem C6_degenerate_crop (ε : Type) (env : Env) (frame : Frame)
    (d : Detection)
    (hx1 : 0 ≤ d.bounding_box.x1) (hy1 : 0 ≤ d.bounding_box.y1)
    (hx2 : 0 ≤ d.bounding_box.x2) (hy2 : 0 ≤ d.bounding_box.y2)
    (hdeg : d.bounding_box.x2 ≤ d.bounding_box.x1 ∨
      d.bounding_box.y2 ≤ d.bounding_box.y1)
    (hdet : env.detector frame = [d]) :
    numPixels (cropFrame frame d.bounding_box) = 0 ∧
    predictE (pureEnvE ε env) frame = Except.ok (predict env frame) ∧
    (env.ocr (cropFrame frame d.bounding_box) = none →
      predict env frame = []) ∧
    (∀ r, env.ocr (cropFrame frame d.bounding_box) = some r →
      successful r = true → predict env frame = [cleanPlate r]) := by
  refine ⟨?_, predictE_pure ε env frame, ?_, ?_⟩
  · rcases hdeg with hx | hy
    · apply numPixels_of_all_nil
      intro row hrow
      obtain ⟨r0, _, hr0⟩ := List.mem_map.mp hrow
      rw [← hr0]
      exact pySlice_empty r0 _ _ hx1 hx2 hx
    · rw [cropFrame, pySlice_empty frame _ _ hy1 hy2 hy]
      rfl
  · intro hnone
    rw [predict, hdet]
    simp [predictGo, hnone]
  · intro r hr hsucc
    have hns : ¬ skipGuard r := by
      simp [skipGuard_iff_not_successful, hsucc]
    rw [predict, hdet]
    simp [predictGo, hr, hns]

/-- Degenerate-box environment for the C6 witness. -/
def envDeg : Env where
  detector := fun _ => [dDeg]
  ocr := fun _ => none
  rectFx := idRectFx
  textFx := idTextFx

/-- C6 witness: a zero-area box `(1,1,1,1)` on the 1×1 frame. -/
theorem C6_witness :
    numPixels (cropFrame frame1 dDeg.bounding_box) = 0 ∧
    predictE (pureEnvE Unit envDeg) frame1 =
      Except.ok (predict envDeg frame1) ∧
    (envDeg.ocr (cropFrame frame1 dDeg.bounding_box) = none →
      predict envDeg frame1 = []) ∧
    (∀ r, envDeg.ocr (cropFrame frame1 dDeg.bounding_box) = some r →
      successful r = true → predict envDeg frame1 = [cleanPlate r]) :=
  C6_degenerate_crop Unit envDeg frame1 dDeg (by decide) (by decide)
    (by decide) (by decide) (Or.inl (by decide)) rfl

/-- C7: every string `draw_predictions` renders is the display string of a
surviving OCR result — the cleaned text, a space, and the arithmetic mean of
the raw (pre-cleaning) confidence sequence times 100 formatted to two
decimal places with a percent sign; for confidences `[0.9, 0.95, 1]` the
displayed value is `95.00%`. -/
theorem C7_display_string :
    (∀ (env : Env) (frame : Frame) (s : String),
      s ∈ textStrings (draw_predictions env frame).2 →
      ∃ (cimg : Frame) (r : OcrResult), env.ocr cimg = some r ∧
        successful r = true ∧
        s = displayText (cleanPlate r) r.confidences) ∧
    displayText "AB12" [9 / 10, 19 / 20, 1] = "AB12 95.00%" := by
  constructor
  · intro env frame s hs
    exact textStrings_mem_drawGo env (env.detector frame) frame s hs
  · have h : npMean [(9 : Rat) / 10, 19 / 20, 1] * 100 * 100 =
        ((9500 : Int) : Rat) := by
      norm_num [npMean]
    rw [displayText, fmt2_eval _ 9500 h]
    decide

/-- C7 witness: the rendered string of the surviving detection of `envInv`
is the display string of its OCR result. -/
theorem C7_witness :
    ∃ (cimg : Frame) (r : OcrResult), envInv.ocr cimg = some r ∧
      successful r = true ∧
      displayText (cleanPlate rX) rX.confidences =
        displayText (cleanPlate r) r.confidences := by
  apply C7_display_string.1 envInv frame1
  have heval : textStrings (draw_predictions envInv frame1).2 =
      [displayText (cleanPlate rX) rX.confidences,
       displayText (cleanPlate rX) rX.confidences] := rfl
  rw [heval]
  exact List.mem_cons_self _ _

end FastAlpr
